import Mathlib

/-!
Verification of the smartparking-simplified service: a shallow embedding of
the in-memory parking state (device snapshot store + slot transition history
log) and of the operations of `server.js` (with the deployment variants noted
where they differ), together with theorems about the spec's claims.

Time is modelled as milliseconds since the epoch (`Nat`); each handler call
receives the current time explicitly.  JS `Date` subtraction is integer
millisecond subtraction, modelled in `Int`.
-/

namespace SmartParking

/-- A transition event of the History Log (`slotHistory` entries built by
`logSlotChange` in `server.js`). -/
structure LogEntry where
  deviceId : String
  slotId : Nat
  previousState : Bool
  newState : Bool
  timestamp : Nat
  ipAddress : Option String
  duration : Option Int
  deriving Repr, DecidableEq

/-- A normalized slot as stored in a device snapshot
(`{id, occupied, lastUpdate}`). -/
structure SlotData where
  id : Nat
  occupied : Bool
  lastUpdate : Nat
  deriving Repr, DecidableEq

/-- A slot of an incoming report in object form (a): `{id?, occupied, lastUpdate?}`;
an absent or zero (JS-falsy) `id` defaults to the 1-based position. -/
structure ObjSlot where
  id : Option Nat
  occupied : Bool
  lastUpdate : Option Nat
  deriving Repr, DecidableEq

/-- The `slots` field of a report: object form (a), simple integer array
form (b), or absent / not an array. -/
inductive SlotsInput where
  | objs (l : List ObjSlot)
  | ints (l : List Int)
  | notArray
  deriving Repr, DecidableEq

/-- An incoming device report (body of `POST /api/parking-status`).
`deviceId := none` models an absent field; `some ""` the empty string
(both JS-falsy). -/
structure Report where
  deviceId : Option String
  timestamp : Option Nat
  wifiStatus : Option String
  slots : SlotsInput
  deriving Repr, DecidableEq

/-- The latest stored snapshot for a device (`parkingData` values). -/
structure DeviceSnapshot where
  deviceId : String
  timestamp : Option Nat
  wifiStatus : Option String
  slots : List SlotData
  availableSlots : Nat
  totalSlots : Nat
  lastUpdate : Nat
  deriving Repr, DecidableEq

/-- The whole mutable server state: the `parkingData` map (as an
insertion-ordered association list, like a JS `Map`) and the `slotHistory`
array. -/
structure ServerState where
  parkingData : List (String × DeviceSnapshot)
  slotHistory : List LogEntry
  deriving Repr, DecidableEq

/-- The empty initial state. -/
def emptyState : ServerState := { parkingData := [], slotHistory := [] }

/-- `Map.get`: first entry with the key. -/
def mapGet (m : List (String × DeviceSnapshot)) (k : String) : Option DeviceSnapshot :=
  (m.find? (fun kv => kv.1 == k)).map Prod.snd

/-- `Map.set`: replace in place if present, else append (JS `Map` keeps
insertion order). -/
def mapSet (m : List (String × DeviceSnapshot)) (k : String) (v : DeviceSnapshot) :
    List (String × DeviceSnapshot) :=
  if m.any (fun kv => kv.1 == k) then m.map (fun kv => if kv.1 == k then (k, v) else kv)
  else m ++ [(k, v)]

/-- `slotHistory.slice().reverse().find(h => h.deviceId === d && h.slotId === s
&& h.newState === true)` from `logSlotChange`. -/
def findLastOccupied (hist : List LogEntry) (deviceId : String) (slotId : Nat) :
    Option LogEntry :=
  hist.reverse.find? (fun h => h.deviceId == deviceId && h.slotId == slotId && h.newState == true)

/-- The log record built by `logSlotChange` before it is pushed: `duration`
is back-filled only on an occupied→available transition, from the most
recent prior event of the pair with `newState === true`. -/
def mkLogEntry (now : Nat) (hist : List LogEntry) (deviceId : String) (slotId : Nat)
    (previousState newState : Bool) (ipAddress : Option String) : LogEntry :=
  let log : LogEntry :=
    { deviceId := deviceId, slotId := slotId, previousState := previousState,
      newState := newState, timestamp := now, ipAddress := ipAddress, duration := none }
  if previousState == true && newState == false then
    match findLastOccupied hist deviceId slotId with
    | some lastOccupied => { log with duration := some ((now : Int) - (lastOccupied.timestamp : Int)) }
    | none => log
  else log

/-- `logSlotChange`: push the record, then `if (slotHistory.length > cap)
slotHistory.shift()`.  The cap is 10000 in `server.js` and 5000 in the
authenticated deployment variant, so it is a parameter here. -/
def logSlotChange (cap now : Nat) (hist : List LogEntry) (deviceId : String) (slotId : Nat)
    (previousState newState : Bool) (ipAddress : Option String) : List LogEntry :=
  let hist2 := hist ++ [mkLogEntry now hist deviceId slotId previousState newState ipAddress]
  if hist2.length > cap then hist2.tail else hist2

/-- Slot normalization for object form (a): `id: slot.id || index + 1`
(JS-falsy `id`, i.e. absent or 0, defaults to the 1-based position),
`lastUpdate: slot.lastUpdate || Date.now()`. -/
def normSlotObj (now idx : Nat) (s : ObjSlot) : SlotData :=
  { id := match s.id with
      | some n => if n == 0 then idx + 1 else n
      | none => idx + 1,
    occupied := s.occupied,
    lastUpdate := match s.lastUpdate with
      | some t => if t == 0 then now else t
      | none => now }

/-- Slot normalization for simple array form (b): `id: index + 1`,
`occupied: value === 1`, `lastUpdate: Date.now()`. -/
def normSlotInt (now idx : Nat) (v : Int) : SlotData :=
  { id := idx + 1, occupied := v == 1, lastUpdate := now }

/-- The `processedSlots` list built by the `POST /api/parking-status` handler. -/
def normalizeSlots (now : Nat) : SlotsInput → List SlotData
  | .objs l => l.enum.map fun iv => normSlotObj now iv.1 iv.2
  | .ints l => l.enum.map fun iv => normSlotInt now iv.1 iv.2
  | .notArray => []

/-- `availableSlots` as the handler computes it: object form counts
`!slot.occupied`; integer form counts `slot === 0`; malformed `slots` gives 0. -/
def availableOf : SlotsInput → Nat
  | .objs l => (l.filter fun s => !s.occupied).length
  | .ints l => (l.filter fun v => v == 0).length
  | .notArray => 0

/-- `totalSlots = slots.length`, 0 when `slots` is malformed. -/
def totalOf : SlotsInput → Nat
  | .objs l => l.length
  | .ints l => l.length
  | .notArray => 0

/-- Transition detection: for each processed slot, look up the previous
snapshot's slot with the same id (`previousSlots.find(p => p.id === slotData.id)`)
and emit `(slotId, previousState, newState)` when the occupancy differs. -/
def detectEvents (prevSlots : List SlotData) (norm : List SlotData) :
    List (Nat × Bool × Bool) :=
  norm.filterMap fun x =>
    match prevSlots.find? (fun p => p.id == x.id) with
    | some p => if p.occupied != x.occupied then some (x.id, p.occupied, x.occupied) else none
    | none => none

/-- A JSON response of the ingest handler: the HTTP status, the optional
`success` boolean, the optional `error` string, and whether a `data` payload
is present. -/
structure ApiResponse where
  status : Nat
  success : Option Bool
  error : Option String
  hasData : Bool
  deriving Repr, DecidableEq

/-- The 400 response of the handler on a JS-falsy `deviceId`:
`res.status(400).json({ error: "Device ID is required" })` (no `success` field). -/
def badRequestResponse : ApiResponse :=
  { status := 400, success := none, error := some "Device ID is required", hasData := false }

/-- The success response of the handler: `{success: true, message, data: {...}}`. -/
def okResponse : ApiResponse :=
  { status := 200, success := some true, error := none, hasData := true }

/-- JS falsiness of the `deviceId` field (`if (!deviceId)`): absent or empty. -/
def falsyDeviceId : Option String → Bool
  | none => true
  | some s => s == ""

/-- `previousSlots`: the slots of the device's stored snapshot, or `[]` when
the device has none yet. -/
def previousSlotsOf (st : ServerState) (d : String) : List SlotData :=
  match mapGet st.parkingData d with
  | some prev => prev.slots
  | none => []

/-- The snapshot the handler stores for the device: the processed slots plus
the computed counts, replacing the previous snapshot wholesale. -/
def builtSnapshot (now : Nat) (r : Report) (d : String) : DeviceSnapshot :=
  { deviceId := d, timestamp := r.timestamp, wifiStatus := r.wifiStatus,
    slots := normalizeSlots now r.slots, availableSlots := availableOf r.slots,
    totalSlots := totalOf r.slots, lastUpdate := now }

/-- The `POST /api/parking-status` handler: validate `deviceId`, normalize
the slots, log one transition per detected change (in slot order, each
append seeing the log as grown so far), and overwrite the device snapshot. -/
def processReport (cap now : Nat) (st : ServerState) (r : Report) (ip : Option String) :
    ServerState × ApiResponse :=
  if falsyDeviceId r.deviceId then (st, badRequestResponse)
  else
    let d := r.deviceId.getD ""
    let events := detectEvents (previousSlotsOf st d) (normalizeSlots now r.slots)
    let hist := events.foldl
      (fun h ev => logSlotChange cap now h d ev.1 ev.2.1 ev.2.2 ip) st.slotHistory
    ({ parkingData := mapSet st.parkingData d (builtSnapshot now r d),
       slotHistory := hist }, okResponse)

/-- Run a sequence of reports, each with its own arrival time and source IP. -/
def runReports (cap : Nat) (st : ServerState) (rs : List (Nat × Report × Option String)) :
    ServerState :=
  rs.foldl (fun s nr => (processReport cap nr.1 s nr.2.1 nr.2.2).1) st

/-! ## Dashboard aggregation (`GET /api/admin/dashboard`) -/

/-- JS number `.toFixed(1)`, modelled exactly over the rationals:
round to one decimal place. -/
def toFixed1 (x : ℚ) : ℚ := (round (x * 10) : ℚ) / 10

/-- One entry of the dashboard's `currentStatus` array. -/
structure StatusEntry where
  deviceId : String
  totalSlots : Nat
  availableSlots : Nat
  occupiedSlots : Int
  occupancyRate : ℚ
  deriving Repr, DecidableEq

/-- The per-device summary the dashboard builds from a stored snapshot:
`occupiedSlots = totalSlots - availableSlots` and
`occupancyRate = ((totalSlots - availableSlots) / totalSlots * 100).toFixed(1)`
guarded to `0` when `totalSlots` is not positive. -/
def currentStatusEntry (d : DeviceSnapshot) : StatusEntry :=
  { deviceId := d.deviceId, totalSlots := d.totalSlots, availableSlots := d.availableSlots,
    occupiedSlots := (d.totalSlots : Int) - (d.availableSlots : Int),
    occupancyRate :=
      if 0 < d.totalSlots then
        toFixed1 ((((d.totalSlots : ℚ) - (d.availableSlots : ℚ)) / (d.totalSlots : ℚ)) * 100)
      else 0 }

/-- JS truthiness of the `duration` field: `null` and `0` are falsy. -/
def jsTruthy : Option Int → Bool
  | none => false
  | some v => v != 0

/-- One entry of the dashboard's `recentChanges` view. -/
structure RecentChange where
  deviceId : String
  slotId : Nat
  change : String
  previousState : String
  timestamp : Nat
  duration : Option Int
  deriving Repr, DecidableEq

/-- The recent-changes projection of a log entry:
`duration: log.duration ? Math.round(log.duration / 1000 / 60) : null`. -/
def recentChangeOf (e : LogEntry) : RecentChange :=
  { deviceId := e.deviceId, slotId := e.slotId,
    change := if e.newState then "occupied" else "available",
    previousState := if e.previousState then "occupied" else "available",
    timestamp := e.timestamp,
    duration :=
      if jsTruthy e.duration then some (round ((e.duration.getD 0 : ℚ) / 1000 / 60)) else none }

/-- Per-slot usage statistics accumulated by the dashboard scan. -/
structure SlotStats where
  slotId : Nat
  totalOccupations : Nat
  totalDuration : Int
  averageDuration : Int
  currentlyOccupied : Bool
  last24hOccupations : Nat
  last7dOccupations : Nat
  deriving Repr, DecidableEq

/-- One step of the dashboard's scan over `slotHistory` for a slot's stats:
count occupations (with 24h/7d window counters) on `newState === true`, and
accumulate `totalDuration` on `newState === false && log.duration` (JS
truthiness, so a `0` duration is skipped). -/
def usageStep (last24Hours last7Days : Nat) (stats : SlotStats) (log : LogEntry) : SlotStats :=
  let stats1 :=
    if log.newState == true then
      { stats with
        totalOccupations := stats.totalOccupations + 1,
        last24hOccupations :=
          if last24Hours ≤ log.timestamp then stats.last24hOccupations + 1
          else stats.last24hOccupations,
        last7dOccupations :=
          if last7Days ≤ log.timestamp then stats.last7dOccupations + 1
          else stats.last7dOccupations }
    else stats
  if log.newState == false && jsTruthy log.duration then
    { stats1 with totalDuration := stats1.totalDuration + log.duration.getD 0 }
  else stats1

/-- An hourly-pattern bucket. -/
structure HourBucket where
  hour : Nat
  occupations : Nat
  releases : Nat
  deriving Repr, DecidableEq

/-- The civil hour-of-day of a timestamp under the deployment's fixed +7h
offset (`getHours` on the WIB-shifted instant). -/
def hourOfDay (t : Nat) : Nat := (t / 3600000 + 7) % 24

/-- A fresh bucket for hour `h`. -/
def zeroBucket (h : Nat) : HourBucket := { hour := h, occupations := 0, releases := 0 }

/-- `hourlyPattern[hour] = {...}`: insert-or-replace keyed by hour. -/
def insertBucket (bs : List HourBucket) (h : Nat) : List HourBucket :=
  if bs.any (fun b => b.hour == h) then bs.map (fun b => if b.hour == h then zeroBucket h else b)
  else bs ++ [zeroBucket h]

/-- The seeding loop: `for (i = 0; i < 24; i++)` create a zero bucket for the
hour of `now - i hours`, so every hour of the day gets a bucket up front. -/
def seedBuckets (now : Nat) : List HourBucket :=
  (List.range 24).foldl (fun acc i => insertBucket acc (hourOfDay (now - i * 3600000))) []

/-- Increment a bucket: `occupations++` on an occupation, `releases++` on a
release; no-op when the hour has no bucket (the variant guards with
`if (hourlyPattern[wibHour])`). -/
def bumpBucket (bs : List HourBucket) (h : Nat) (occupied : Bool) : List HourBucket :=
  bs.map fun b =>
    if b.hour == h then
      if occupied then { b with occupations := b.occupations + 1 }
      else { b with releases := b.releases + 1 }
    else b

/-- The hourly occupancy pattern: seed all 24 buckets, then scan the log
entries of the last 24 hours (`log.timestamp >= now - 24h`), incrementing
the bucket of each entry's civil hour. -/
def hourlyPattern (now : Nat) (hist : List LogEntry) : List HourBucket :=
  (hist.filter fun l => now - 24 * 3600000 ≤ l.timestamp).foldl
    (fun bs l => bumpBucket bs (hourOfDay l.timestamp) l.newState) (seedBuckets now)

/-- Total activity recorded in a bucket list. -/
def bucketActivity (bs : List HourBucket) : Nat :=
  (bs.map fun b => b.occupations + b.releases).sum

/-! ## Conditions and projections used by the claims -/

/-- A report is identical in slot occupancy to the device's stored snapshot:
the device exists and every normalized slot whose id the transition detector
finds in the previous snapshot has the same occupancy there. -/
def sameOccupancy (st : ServerState) (now : Nat) (r : Report) : Bool :=
  match r.deviceId with
  | none => false
  | some d =>
    if d == "" then false
    else
      match mapGet st.parkingData d with
      | none => false
      | some prev =>
          (normalizeSlots now r.slots).all fun x =>
            match prev.slots.find? (fun p => p.id == x.id) with
            | some p => p.occupied == x.occupied
            | none => true

/-- Every report of the run is identical in slot occupancy to the snapshot
current when it arrives. -/
def allSameOccupancy (cap : Nat) : ServerState → List (Nat × Report × Option String) → Bool
  | _, [] => true
  | st, (now, r, ip) :: rest =>
      sameOccupancy st now r && allSameOccupancy cap (processReport cap now st r ip).1 rest

/-- The `newState` values of the History Log filtered to one
(deviceId, slotId) pair, in log order. -/
def keyStates (hist : List LogEntry) (d : String) (s : Nat) : List Bool :=
  hist.filterMap fun e => if e.deviceId == d && e.slotId == s then some e.newState else none

/-- A Boolean sequence strictly alternates: no two consecutive elements are
equal. -/
def alternating (l : List Bool) : Prop := l.Chain' (· ≠ ·)

/-- Side condition for the alternation invariant: the report's normalized
slot ids are pairwise distinct and cover every id of the device's previous
snapshot (no slot id is silently dropped and later reintroduced). -/
def goodStep (st : ServerState) (now : Nat) (r : Report) : Bool :=
  match r.deviceId with
  | none => true
  | some d =>
    if d == "" then true
    else
      let norm := normalizeSlots now r.slots
      decide ((norm.map SlotData.id).Nodup)
        && (previousSlotsOf st d).all fun p => norm.any fun x => x.id == p.id

/-- Every report of the run satisfies `goodStep` at its arrival state. -/
def goodRun (cap : Nat) : ServerState → List (Nat × Report × Option String) → Bool
  | _, [] => true
  | st, (now, r, ip) :: rest =>
      goodStep st now r && goodRun cap (processReport cap now st r ip).1 rest

/-! ## Helper lemmas -/

theorem reverse_find_eq_getLast_filter {α : Type} (p : α → Bool) (l : List α) :
    l.reverse.find? p = (l.filter p).getLast? := by
  induction l using List.reverseRecOn with
  | nil => rfl
  | append_singleton l a ih =>
    rw [List.reverse_append, List.filter_append, List.filter_singleton]
    cases h : p a with
    | true =>
      rw [List.reverse_singleton, List.singleton_append, List.find?_cons_of_pos _ h]
      simp [List.getLast?_concat]
    | false =>
      rw [List.reverse_singleton, List.singleton_append,
        List.find?_cons_of_neg _ (by simp [h]), ih]
      simp

theorem mapGet_mapSet_self (m : List (String × DeviceSnapshot)) (k : String)
    (v : DeviceSnapshot) : mapGet (mapSet m k v) k = some v := by
  unfold mapGet mapSet
  by_cases hmem : m.any (fun kv => kv.1 == k) = true
  · simp only [hmem, if_pos]
    induction m with
    | nil => simp at hmem
    | cons hd tl ih =>
      by_cases hk : hd.1 == k
      · simp [List.find?, hk]
      · simp only [List.any_cons, hk, Bool.false_or] at hmem
        simpa [List.find?, hk] using ih hmem
  · simp only [hmem, if_neg, Bool.not_eq_true]
    rw [List.find?_append]
    have hnone : m.find? (fun kv => kv.1 == k) = none := by
      rw [List.find?_eq_none]
      intro kv hkv
      have := (List.any_eq_true (l := m) (p := fun kv => kv.1 == k)).not.mp
        (by simp [hmem])
      push_neg at this
      simpa using this kv hkv
    simp [hnone, List.find?]

theorem find_replace_other (m : List (String × DeviceSnapshot)) (k k' : String)
    (v : DeviceSnapshot) (hne : (k' == k) = false) :
    (m.map fun kv => if kv.1 == k then (k, v) else kv).find? (fun kv => kv.1 == k')
      = m.find? (fun kv => kv.1 == k') := by
  have hk'k : ¬ k' = k := by simpa using hne
  induction m with
  | nil => rfl
  | cons hd tl ih =>
    rw [List.map_cons]
    by_cases hk : (hd.1 == k) = true
    · have h1 : hd.1 = k := by simpa using hk
      have h2 : (k == k') = false := by
        simp only [beq_eq_false_iff_ne, ne_eq]
        intro h
        exact hk'k h.symm
      have h3 : (hd.1 == k') = false := by rw [h1]; exact h2
      rw [if_pos hk, List.find?_cons_of_neg _ (by simp [h2]),
        List.find?_cons_of_neg _ (by simp [h3]), ih]
    · have hkf : (hd.1 == k) = false := by simpa using hk
      rw [if_neg hk]
      rw [List.find?_cons, List.find?_cons]
      cases h3 : (hd.1 == k') with
      | true => rfl
      | false => exact ih

theorem mapGet_mapSet_other (m : List (String × DeviceSnapshot)) (k k' : String)
    (v : DeviceSnapshot) (hne : (k' == k) = false) :
    mapGet (mapSet m k v) k' = mapGet m k' := by
  unfold mapGet mapSet
  by_cases hmem : m.any (fun kv => kv.1 == k) = true
  · simp only [hmem, if_pos]
    rw [find_replace_other m k k' v hne]
  · simp only [hmem, if_neg, Bool.not_eq_true]
    rw [List.find?_append]
    have h2 : (k == k') = false := by
      simp only [beq_eq_false_iff_ne, ne_eq]
      intro h
      exact absurd h.symm (by simpa using hne)
    cases hfind : m.find? (fun kv => kv.1 == k') with
    | some kv => simp [hfind]
    | none => simp [hfind, List.find?_cons, h2]

/-! ## Claims -/

/-- C9: for every request to `POST /parking-status` whose `deviceId` is
absent or the empty string, the handler returns the 400 error and neither
the Device State Store nor the History Log is modified. -/
theorem C9_invalid_deviceId_no_mutation (cap now : Nat) (st : ServerState) (r : Report)
    (ip : Option String) (h : falsyDeviceId r.deviceId = true) :
    (processReport cap now st r ip).1 = st ∧
      (processReport cap now st r ip).2.status = 400 := by
  simp [processReport, h, badRequestResponse]

theorem C9_invalid_deviceId_no_mutation_witness :
    (processReport 10000 5 emptyState
        { deviceId := some "", timestamp := none, wifiStatus := none,
          slots := .ints [1] } none).1 = emptyState ∧
      (processReport 10000 5 emptyState
        { deviceId := some "", timestamp := none, wifiStatus := none,
          slots := .ints [1] } none).2.status = 400 :=
  C9_invalid_deviceId_no_mutation 10000 5 emptyState
    { deviceId := some "", timestamp := none, wifiStatus := none, slots := .ints [1] }
    none (by decide)

/-- C8 counterexample: the 400 response for a missing `deviceId` is
`{error: "Device ID is required"}` with no `success` boolean at all, so the
claim that every response (in particular this one) carries a `success`
boolean is false. -/
theorem C8_counterexample :
    (processReport 10000 5 emptyState
        { deviceId := none, timestamp := none, wifiStatus := none,
          slots := .notArray } none).2.status = 400 ∧
      (processReport 10000 5 emptyState
        { deviceId := none, timestamp := none, wifiStatus := none,
          slots := .notArray } none).2.success = none := by
  decide

/-- C8 (amended): the success-path response of `POST /parking-status`
carries `success = true` together with data, but the 400 response on a
missing `deviceId` carries only the error message and no `success` flag. -/
theorem C8_amended_response_shape (cap now : Nat) (st : ServerState) (r : Report)
    (ip : Option String) :
    (falsyDeviceId r.deviceId = true →
        (processReport cap now st r ip).2 = badRequestResponse ∧
        badRequestResponse.success = none ∧
        badRequestResponse.error = some "Device ID is required" ∧
        badRequestResponse.status = 400) ∧
      (falsyDeviceId r.deviceId = false →
        (processReport cap now st r ip).2.success = some true ∧
        (processReport cap now st r ip).2.hasData = true ∧
        (processReport cap now st r ip).2.status = 200) := by
  constructor
  · intro h
    simp [processReport, h, badRequestResponse]
  · intro h
    simp [processReport, h, okResponse]

theorem C8_amended_response_shape_witness :
    ((processReport 10000 5 emptyState
        { deviceId := none, timestamp := none, wifiStatus := none,
          slots := .notArray } none).2 = badRequestResponse ∧
      badRequestResponse.success = none ∧
      badRequestResponse.error = some "Device ID is required" ∧
      badRequestResponse.status = 400) ∧
    ((processReport 10000 5 emptyState
        { deviceId := some "D", timestamp := none, wifiStatus := none,
          slots := .ints [0] } none).2.success = some true ∧
      (processReport 10000 5 emptyState
        { deviceId := some "D", timestamp := none, wifiStatus := none,
          slots := .ints [0] } none).2.hasData = true ∧
      (processReport 10000 5 emptyState
        { deviceId := some "D", timestamp := none, wifiStatus := none,
          slots := .ints [0] } none).2.status = 200) :=
  ⟨(C8_amended_response_shape 10000 5 emptyState
      { deviceId := none, timestamp := none, wifiStatus := none, slots := .notArray }
      none).1 (by decide),
    (C8_amended_response_shape 10000 5 emptyState
      { deviceId := some "D", timestamp := none, wifiStatus := none, slots := .ints [0] }
      none).2 (by decide)⟩

/-- C10: a log entry whose recorded `duration` is exactly `0` is treated
everywhere like one with no duration recorded: the recent-changes view and
the per-slot usage scan behave identically on it (the code tests the
duration for JS truthiness, and `0` is falsy), and in particular its
recent-changes `duration` is reported as `null`. -/
theorem C10_zero_duration_treated_as_none (e : LogEntry) (h : e.duration = some 0) :
    recentChangeOf e = recentChangeOf { e with duration := none } ∧
      (recentChangeOf e).duration = none ∧
      (∀ (last24Hours last7Days : Nat) (stats : SlotStats),
        usageStep last24Hours last7Days stats e =
          usageStep last24Hours last7Days stats { e with duration := none }) := by
  refine ⟨?_, ?_, ?_⟩
  · simp [recentChangeOf, jsTruthy, h]
  · simp [recentChangeOf, jsTruthy, h]
  · intro last24Hours last7Days stats
    simp [usageStep, jsTruthy, h]

theorem C10_zero_duration_treated_as_none_witness :
    (recentChangeOf
        { deviceId := "D", slotId := 1, previousState := true, newState := false,
          timestamp := 9, ipAddress := none, duration := some 0 } =
      recentChangeOf
        { deviceId := "D", slotId := 1, previousState := true, newState := false,
          timestamp := 9, ipAddress := none, duration := none }) ∧
      (recentChangeOf
        { deviceId := "D", slotId := 1, previousState := true, newState := false,
          timestamp := 9, ipAddress := none, duration := some 0 }).duration = none ∧
      (usageStep 2 3
          { slotId := 1, totalOccupations := 4, totalDuration := 5, averageDuration := 6,
            currentlyOccupied := false, last24hOccupations := 7, last7dOccupations := 8 }
          { deviceId := "D", slotId := 1, previousState := true, newState := false,
            timestamp := 9, ipAddress := none, duration := some 0 } =
        usageStep 2 3
          { slotId := 1, totalOccupations := 4, totalDuration := 5, averageDuration := 6,
            currentlyOccupied := false, last24hOccupations := 7, last7dOccupations := 8 }
          { deviceId := "D", slotId := 1, previousState := true, newState := false,
            timestamp := 9, ipAddress := none, duration := none }) :=
  ⟨(C10_zero_duration_treated_as_none
      { deviceId := "D", slotId := 1, previousState := true, newState := false,
        timestamp := 9, ipAddress := none, duration := some 0 } rfl).1,
    (C10_zero_duration_treated_as_none
      { deviceId := "D", slotId := 1, previousState := true, newState := false,
        timestamp := 9, ipAddress := none, duration := some 0 } rfl).2.1,
    (C10_zero_duration_treated_as_none
      { deviceId := "D", slotId := 1, previousState := true, newState := false,
        timestamp := 9, ipAddress := none, duration := some 0 } rfl).2.2 2 3
      { slotId := 1, totalOccupations := 4, totalDuration := 5, averageDuration := 6,
        currentlyOccupied := false, last24hOccupations := 7, last7dOccupations := 8 }⟩

/-- C2: the appended event's `duration` is populated iff
`previousState = true`, `newState = false` and a prior event of the pair with
`newState = true` exists in the log at append time (`findLastOccupied`, which
is exactly the most recent such prior event); when populated it equals the
current time minus that prior event's timestamp, and otherwise it stays
unset. -/
theorem C2_duration_backfill (now : Nat) (hist : List LogEntry) (d : String) (s : Nat)
    (ps ns : Bool) (ip : Option String) :
    (findLastOccupied hist d s =
        (hist.filter fun h => h.deviceId == d && h.slotId == s && h.newState == true).getLast?) ∧
      ((mkLogEntry now hist d s ps ns ip).duration ≠ none ↔
        ps = true ∧ ns = false ∧ findLastOccupied hist d s ≠ none) ∧
      (∀ prev, ps = true → ns = false → findLastOccupied hist d s = some prev →
        (mkLogEntry now hist d s ps ns ip).duration =
          some ((now : Int) - (prev.timestamp : Int))) := by
  refine ⟨reverse_find_eq_getLast_filter _ hist, ?_, ?_⟩
  · unfold mkLogEntry
    cases ps <;> cases ns <;> simp
    cases h : findLastOccupied hist d s <;> simp [h]
  · intro prev hps hns hfind
    subst hps
    subst hns
    unfold mkLogEntry
    simp [hfind]

theorem C2_duration_backfill_witness :
    (mkLogEntry 250 (logSlotChange 10000 100 [] "D" 1 false true none) "D" 1 true false
        none).duration = some 150 := by
  have h := (C2_duration_backfill 250 (logSlotChange 10000 100 [] "D" 1 false true none)
    "D" 1 true false none).2.2 (mkLogEntry 100 [] "D" 1 false true none) rfl rfl (by decide)
  simpa using h

theorem logSlotChange_eq_drop (cap now : Nat) (hist : List LogEntry) (d : String) (s : Nat)
    (ps ns : Bool) (ip : Option String) :
    logSlotChange cap now hist d s ps ns ip =
      (hist ++ [mkLogEntry now hist d s ps ns ip]).drop
        (if hist.length + 1 > cap then 1 else 0) := by
  unfold logSlotChange
  by_cases hlen : hist.length + 1 > cap
  · rw [if_pos (by simpa using hlen), if_pos hlen, ← List.drop_one]
  · rw [if_neg (by simpa using hlen), if_neg hlen, List.drop_zero]

theorem logSlotChange_length_le (cap now : Nat) (hist : List LogEntry) (d : String) (s : Nat)
    (ps ns : Bool) (ip : Option String) (h : hist.length ≤ cap) :
    (logSlotChange cap now hist d s ps ns ip).length ≤ cap := by
  rw [logSlotChange_eq_drop]
  by_cases hlen : hist.length + 1 > cap <;> simp [hlen] <;> omega

theorem foldl_logSlotChange_length_le (cap now : Nat) (d : String) (ip : Option String)
    (events : List (Nat × Bool × Bool)) (hist : List LogEntry) (h : hist.length ≤ cap) :
    (events.foldl (fun h2 ev => logSlotChange cap now h2 d ev.1 ev.2.1 ev.2.2 ip)
        hist).length ≤ cap := by
  induction events generalizing hist with
  | nil => exact h
  | cons ev rest ih =>
    rw [List.foldl_cons]
    exact ih _ (logSlotChange_length_le cap now hist d ev.1 ev.2.1 ev.2.2 ip h)

theorem processReport_length_le (cap now : Nat) (st : ServerState) (r : Report)
    (ip : Option String) (h : st.slotHistory.length ≤ cap) :
    (processReport cap now st r ip).1.slotHistory.length ≤ cap := by
  unfold processReport
  by_cases hf : falsyDeviceId r.deviceId = true
  · simpa [hf] using h
  · rw [if_neg (by simpa using hf)]
    exact foldl_logSlotChange_length_le cap now _ ip _ st.slotHistory h

theorem runReports_length_le (cap : Nat) (rs : List (Nat × Report × Option String))
    (st : ServerState) (h : st.slotHistory.length ≤ cap) :
    (runReports cap st rs).slotHistory.length ≤ cap := by
  induction rs generalizing st with
  | nil => exact h
  | cons nr rest ih =>
    rw [runReports, List.foldl_cons]
    exact ih _ (processReport_length_le cap nr.1 st nr.2.1 nr.2.2 h)

/-- C3: each append keeps the History Log within the configured cap
(10000 / 5000 depending on the deployment variant, so stated for every cap),
eviction removes exactly the oldest front entries — the result is the
original log plus the new event with exactly the excess dropped from the
front — and every state reached from the empty initial state respects the
cap. -/
theorem C3_history_cap_fifo (cap : Nat) :
    (∀ (now : Nat) (hist : List LogEntry) (d : String) (s : Nat) (ps ns : Bool)
        (ip : Option String), hist.length ≤ cap →
      (logSlotChange cap now hist d s ps ns ip).length ≤ cap ∧
      logSlotChange cap now hist d s ps ns ip =
        (hist ++ [mkLogEntry now hist d s ps ns ip]).drop (hist.length + 1 - cap)) ∧
    (∀ rs, (runReports cap emptyState rs).slotHistory.length ≤ cap) := by
  constructor
  · intro now hist d s ps ns ip h
    refine ⟨logSlotChange_length_le cap now hist d s ps ns ip h, ?_⟩
    rw [logSlotChange_eq_drop]
    congr 1
    split <;> omega
  · intro rs
    exact runReports_length_le cap rs emptyState (by simp [emptyState])

/-- A two-entry History Log at cap 2 used by the C3 witness. -/
def capDemoHist : List LogEntry :=
  [{ deviceId := "D", slotId := 1, previousState := false, newState := true,
      timestamp := 1, ipAddress := none, duration := none },
    { deviceId := "D", slotId := 2, previousState := false, newState := true,
      timestamp := 2, ipAddress := none, duration := none }]

theorem C3_history_cap_fifo_witness :
    (logSlotChange 2 7 capDemoHist "D" 1 true false none).length ≤ 2 ∧
      logSlotChange 2 7 capDemoHist "D" 1 true false none =
        (capDemoHist ++ [mkLogEntry 7 capDemoHist "D" 1 true false none]).drop
          (capDemoHist.length + 1 - 2) :=
  (C3_history_cap_fifo 2).1 7 capDemoHist "D" 1 true false none (by decide)

/-- C4 counterexample: for the integer-form report `slots = [2]` the stored
snapshot has `availableSlots = 0` (the handler counts values equal to `0`)
while exactly one of its normalized slots has `occupied = false` (since
`2 ≠ 1`), so the claim's equation fails for values other than 0 and 1. -/
theorem C4_counterexample :
    ((processReport 10000 3 emptyState
        { deviceId := some "D", timestamp := none, wifiStatus := none,
          slots := .ints [2] } none).1.parkingData.map fun kv =>
      (kv.2.availableSlots, (kv.2.slots.filter fun s => !s.occupied).length)) = [(0, 1)] ∧
      (0 : Nat) ≠ 1 := by
  decide

/-- C4 (amended): integer-form normalization gives one slot per position with
`id` the 1-based position and `occupied = (value == 1)`, `totalSlots` is the
input length, and `availableSlots` is the count of input values equal to `0`
— which agrees with the count of normalized slots with `occupied = false`
whenever every value is 0 or 1 (but not for other values). -/
theorem C4_amended_int_normalization (now : Nat) (l : List Int) :
    totalOf (.ints l) = l.length ∧
      (normalizeSlots now (.ints l)).length = l.length ∧
      (∀ i : Nat, (normalizeSlots now (.ints l)).get? i =
        (l.get? i).map fun v =>
          { id := i + 1, occupied := v == 1, lastUpdate := now }) ∧
      availableOf (.ints l) = (l.filter fun v => v == 0).length ∧
      ((∀ v ∈ l, v = 0 ∨ v = 1) →
        availableOf (.ints l) =
          ((normalizeSlots now (.ints l)).filter fun s => !s.occupied).length) := by
  refine ⟨rfl, ?_, ?_, rfl, ?_⟩
  · simp [normalizeSlots]
  · intro i
    simp only [normalizeSlots, List.get?_eq_getElem?, List.getElem?_map, List.getElem?_enum]
    cases h : l[i]? with
    | none => rfl
    | some v => rfl
  · intro hv
    have h1 : availableOf (.ints l) = l.countP fun v => v == 0 := by
      rw [availableOf, List.countP_eq_length_filter]
    have h2 : ((normalizeSlots now (.ints l)).filter fun s => !s.occupied).length
        = l.countP fun v => !(v == 1) := by
      rw [← List.countP_eq_length_filter, normalizeSlots, List.countP_map]
      have h3 : l.countP (fun v => !(v == 1)) =
          (l.enum.map Prod.snd).countP fun v => !(v == 1) := by
        rw [List.enum_map_snd]
      rw [h3, List.countP_map]
      rfl
    rw [h1, h2]
    apply List.countP_congr
    intro v hvl
    rcases hv v hvl with h | h <;> subst h <;> simp

theorem C4_amended_int_normalization_witness :
    totalOf (.ints [0, 1]) = 2 ∧
      (normalizeSlots 4 (.ints [0, 1])).length = 2 ∧
      ((normalizeSlots 4 (.ints [0, 1])).get? 1 =
        some { id := 2, occupied := true, lastUpdate := 4 }) ∧
      availableOf (.ints [0, 1]) = 1 ∧
      availableOf (.ints [0, 1]) =
        ((normalizeSlots 4 (.ints [0, 1])).filter fun s => !s.occupied).length := by
  have h := C4_amended_int_normalization 4 [0, 1]
  exact ⟨h.1, h.2.1, by rw [h.2.2.1 1]; rfl, h.2.2.2.1,
    h.2.2.2.2 (by intro v hv; fin_cases hv <;> simp)⟩

theorem round_rat_mono {x y : ℚ} (h : x ≤ y) : round x ≤ round y := by
  rw [round_eq, round_eq]
  exact Int.floor_le_floor (by linarith)

theorem toFixed1_bounds {x : ℚ} (h0 : 0 ≤ x) (h100 : x ≤ 100) :
    0 ≤ toFixed1 x ∧ toFixed1 x ≤ 100 := by
  unfold toFixed1
  have hl : (0 : ℤ) ≤ round (x * 10) := by
    have h1 := @round_rat_mono 0 (x * 10) (by linarith)
    simpa using h1
  have hu : round (x * 10) ≤ 1000 := by
    have h1 := @round_rat_mono (x * 10) 1000 (by linarith)
    rw [show ((1000 : ℚ)) = ((1000 : ℤ) : ℚ) by norm_num, round_intCast] at h1
    exact h1
  constructor
  · have h2 : (0 : ℚ) ≤ (round (x * 10) : ℚ) := by exact_mod_cast hl
    linarith
  · have h2 : ((round (x * 10) : ℚ)) ≤ 1000 := by exact_mod_cast hu
    linarith

/-- C7: for every device snapshot with `availableSlots ≤ totalSlots` (which
`processReport` always stores, since the available count never exceeds the
slot count), the dashboard's `occupiedSlots` is `totalSlots - availableSlots`
and `occupancyRate` lies in `[0, 100]`, is exactly `0` when
`totalSlots = 0`, and the division is guarded, never an error. -/
theorem C7_occupancy_rate (snap : DeviceSnapshot)
    (h : snap.availableSlots ≤ snap.totalSlots) :
    (currentStatusEntry snap).occupiedSlots =
        (snap.totalSlots : Int) - (snap.availableSlots : Int) ∧
      0 ≤ (currentStatusEntry snap).occupancyRate ∧
      (currentStatusEntry snap).occupancyRate ≤ 100 ∧
      (snap.totalSlots = 0 → (currentStatusEntry snap).occupancyRate = 0) ∧
      (∀ si : SlotsInput, availableOf si ≤ totalOf si) := by
  have hrate : 0 ≤ (currentStatusEntry snap).occupancyRate ∧
      (currentStatusEntry snap).occupancyRate ≤ 100 := by
    unfold currentStatusEntry
    by_cases ht : 0 < snap.totalSlots
    · rw [if_pos ht]
      have htq : (0 : ℚ) < (snap.totalSlots : ℚ) := by exact_mod_cast ht
      have haq : ((snap.availableSlots : ℚ)) ≤ (snap.totalSlots : ℚ) := by exact_mod_cast h
      have h0 : 0 ≤ (((snap.totalSlots : ℚ) - (snap.availableSlots : ℚ)) /
          (snap.totalSlots : ℚ)) * 100 := by
        apply mul_nonneg _ (by norm_num)
        exact div_nonneg (by linarith) (le_of_lt htq)
      have h100 : (((snap.totalSlots : ℚ) - (snap.availableSlots : ℚ)) /
          (snap.totalSlots : ℚ)) * 100 ≤ 100 := by
        have hdiv : ((snap.totalSlots : ℚ) - (snap.availableSlots : ℚ)) /
            (snap.totalSlots : ℚ) ≤ 1 := by
          rw [div_le_one htq]
          linarith
        nlinarith
      exact toFixed1_bounds h0 h100
    · rw [if_neg ht]
      norm_num
  refine ⟨rfl, hrate.1, hrate.2, ?_, ?_⟩
  · intro h0
    simp [currentStatusEntry, h0]
  · intro si
    cases si with
    | objs l => exact List.length_filter_le _ l
    | ints l => exact List.length_filter_le _ l
    | notArray => exact le_refl 0

/-- A stored snapshot used by the C7 witness: 1 of 2 slots available. -/
def demoSnap : DeviceSnapshot :=
  { deviceId := "D", timestamp := none, wifiStatus := none, slots := [],
    availableSlots := 1, totalSlots := 2, lastUpdate := 0 }

theorem C7_occupancy_rate_witness :
    0 ≤ (currentStatusEntry demoSnap).occupancyRate ∧
      (currentStatusEntry demoSnap).occupancyRate ≤ 100 ∧
      availableOf (.ints [0, 1]) ≤ totalOf (.ints [0, 1]) :=
  ⟨(C7_occupancy_rate demoSnap (by decide)).2.1,
    (C7_occupancy_rate demoSnap (by decide)).2.2.1,
    (C7_occupancy_rate demoSnap (by decide)).2.2.2.2 (.ints [0, 1])⟩

theorem processReport_eq (cap now : Nat) (st : ServerState) (r : Report) (ip : Option String)
    (hf : falsyDeviceId r.deviceId = false) :
    processReport cap now st r ip =
      ({ parkingData := mapSet st.parkingData (r.deviceId.getD "")
            (builtSnapshot now r (r.deviceId.getD "")),
         slotHistory :=
           (detectEvents (previousSlotsOf st (r.deviceId.getD ""))
              (normalizeSlots now r.slots)).foldl
             (fun h ev => logSlotChange cap now h (r.deviceId.getD "") ev.1 ev.2.1 ev.2.2 ip)
             st.slotHistory }, okResponse) := by
  unfold processReport
  rw [if_neg (by simp [hf])]

theorem detectEvents_eq_nil_of_matching (prevSlots norm : List SlotData)
    (h : ∀ x ∈ norm, ∀ p, prevSlots.find? (fun q => q.id == x.id) = some p →
      p.occupied = x.occupied) :
    detectEvents prevSlots norm = [] := by
  rw [detectEvents, List.filterMap_eq_nil_iff]
  intro x hx
  cases hp : prevSlots.find? (fun q => q.id == x.id) with
  | none => rfl
  | some p =>
    have he := h x hx p hp
    simp [hp, he]

theorem sameOccupancy_spec (st : ServerState) (now : Nat) (r : Report)
    (h : sameOccupancy st now r = true) :
    ∃ d prev, r.deviceId = some d ∧ (d == "") = false ∧
      mapGet st.parkingData d = some prev ∧
      ∀ x ∈ normalizeSlots now r.slots, ∀ p,
        prev.slots.find? (fun q => q.id == x.id) = some p → p.occupied = x.occupied := by
  unfold sameOccupancy at h
  split at h
  · exact absurd h (by simp)
  · rename_i d hd
    split at h
    · exact absurd h (by simp)
    · rename_i he
      split at h
      · exact absurd h (by simp)
      · rename_i prev hm
        refine ⟨d, prev, hd, by simpa using he, hm, ?_⟩
        intro x hx p hp
        have hall := (List.all_eq_true.mp h) x hx
        rw [hp] at hall
        simpa using hall

theorem sameOccupancy_step (cap now : Nat) (st : ServerState) (r : Report) (ip : Option String)
    (h : sameOccupancy st now r = true) :
    (processReport cap now st r ip).1.slotHistory = st.slotHistory ∧
      mapGet (processReport cap now st r ip).1.parkingData (r.deviceId.getD "") =
        some (builtSnapshot now r (r.deviceId.getD "")) := by
  obtain ⟨d, prev, hd, he, hm, hmatch⟩ := sameOccupancy_spec st now r h
  have hf : falsyDeviceId r.deviceId = false := by rw [hd]; simp only [falsyDeviceId]; exact he
  have hdg : r.deviceId.getD "" = d := by rw [hd]; rfl
  rw [processReport_eq cap now st r ip hf, hdg]
  have hprev : previousSlotsOf st d = prev.slots := by
    unfold previousSlotsOf
    rw [hm]
  have hnil : detectEvents (previousSlotsOf st d) (normalizeSlots now r.slots) = [] := by
    rw [hprev]
    exact detectEvents_eq_nil_of_matching _ _ hmatch
  rw [hnil]
  exact ⟨rfl, mapGet_mapSet_self st.parkingData d (builtSnapshot now r d)⟩

theorem allSameOccupancy_run (cap : Nat) (st : ServerState)
    (rs : List (Nat × Report × Option String)) (h : allSameOccupancy cap st rs = true) :
    (runReports cap st rs).slotHistory = st.slotHistory := by
  induction rs generalizing st with
  | nil => rfl
  | cons nr rest ih =>
    obtain ⟨now, r, ip⟩ := nr
    rw [allSameOccupancy] at h
    have h1 := (Bool.and_eq_true _ _).mp h
    rw [runReports, List.foldl_cons]
    have hstep := sameOccupancy_step cap now st r ip h1.1
    calc (runReports cap (processReport cap now st r ip).1 rest).slotHistory
        = (processReport cap now st r ip).1.slotHistory := ih _ h1.2
      _ = st.slotHistory := hstep.1

/-- C5: the very first report for a device appends nothing to the History
Log (there is no prior snapshot to diff against) while its snapshot is still
written; and any run of reports each identical in slot occupancy to the
device's previous snapshot leaves the History Log unchanged (no spurious
transitions), with the snapshot rewritten each time. -/
theorem C5_no_spurious_transitions (cap : Nat) :
    (∀ (now : Nat) (st : ServerState) (r : Report) (ip : Option String) (d : String),
      r.deviceId = some d → (d == "") = false → mapGet st.parkingData d = none →
      (processReport cap now st r ip).1.slotHistory = st.slotHistory ∧
        mapGet (processReport cap now st r ip).1.parkingData d =
          some (builtSnapshot now r d)) ∧
      (∀ (now : Nat) (st : ServerState) (r : Report) (ip : Option String),
        sameOccupancy st now r = true →
        (processReport cap now st r ip).1.slotHistory = st.slotHistory ∧
          mapGet (processReport cap now st r ip).1.parkingData (r.deviceId.getD "") =
            some (builtSnapshot now r (r.deviceId.getD ""))) ∧
      (∀ (st : ServerState) (rs : List (Nat × Report × Option String)),
        allSameOccupancy cap st rs = true →
        (runReports cap st rs).slotHistory = st.slotHistory) := by
  refine ⟨?_, sameOccupancy_step cap, allSameOccupancy_run cap⟩
  intro now st r ip d hd he hm
  have hf : falsyDeviceId r.deviceId = false := by rw [hd]; simp only [falsyDeviceId]; exact he
  have hdg : r.deviceId.getD "" = d := by rw [hd]; rfl
  rw [processReport_eq cap now st r ip hf, hdg]
  have hprev : previousSlotsOf st d = [] := by
    unfold previousSlotsOf
    rw [hm]
  have hnil : detectEvents (previousSlotsOf st d) (normalizeSlots now r.slots) = [] := by
    rw [hprev]
    exact detectEvents_eq_nil_of_matching _ _ (by intro x hx p hp; simp at hp)
  rw [hnil]
  exact ⟨rfl, mapGet_mapSet_self st.parkingData d (builtSnapshot now r d)⟩

/-- The report used by the C5 witness. -/
def demoReport : Report :=
  { deviceId := some "D", timestamp := none, wifiStatus := none, slots := .ints [0, 1] }

/-- The state after the first demo report. -/
def demoState1 : ServerState := (processReport 10000 5 emptyState demoReport none).1

theorem C5_no_spurious_transitions_witness :
    ((processReport 10000 5 emptyState demoReport none).1.slotHistory =
        emptyState.slotHistory ∧
      mapGet (processReport 10000 5 emptyState demoReport none).1.parkingData "D" =
        some (builtSnapshot 5 demoReport "D")) ∧
      ((processReport 10000 6 demoState1 demoReport none).1.slotHistory =
        demoState1.slotHistory ∧
        mapGet (processReport 10000 6 demoState1 demoReport none).1.parkingData
            (demoReport.deviceId.getD "") =
          some (builtSnapshot 6 demoReport (demoReport.deviceId.getD ""))) ∧
      (runReports 10000 demoState1 [(6, demoReport, none), (7, demoReport, none)]).slotHistory =
        demoState1.slotHistory :=
  ⟨(C5_no_spurious_transitions 10000).1 5 emptyState demoReport none "D" rfl (by decide)
      (by decide),
    (C5_no_spurious_transitions 10000).2.1 6 demoState1 demoReport none (by decide),
    (C5_no_spurious_transitions 10000).2.2 demoState1 [(6, demoReport, none), (7, demoReport, none)]
      (by decide)⟩

theorem hour_map_insertBucket (bs : List HourBucket) (h : Nat) :
    (insertBucket bs h).map HourBucket.hour =
      if bs.any (fun b => b.hour == h) then bs.map HourBucket.hour
      else bs.map HourBucket.hour ++ [h] := by
  unfold insertBucket
  by_cases hp : bs.any (fun b => b.hour == h) = true
  · rw [if_pos hp, if_pos hp, List.map_map]
    apply List.map_congr_left
    intro b hb
    by_cases hbh : (b.hour == h) = true
    · have hbh2 : b.hour = h := by simpa using hbh
      simp [Function.comp, hbh, zeroBucket, hbh2]
    · simp [Function.comp, hbh]
  · rw [if_neg hp, if_neg hp, List.map_append]
    rfl

theorem hour_map_bumpBucket (bs : List HourBucket) (h : Nat) (occ : Bool) :
    (bumpBucket bs h occ).map HourBucket.hour = bs.map HourBucket.hour := by
  unfold bumpBucket
  rw [List.map_map]
  apply List.map_congr_left
  intro b hb
  by_cases hbh : (b.hour == h) = true <;> cases occ <;> simp [Function.comp, hbh]

theorem foldl_insert_hours_mem (f : Nat → Nat) (is : List Nat) (bs : List HourBucket)
    (k : Nat) :
    (k ∈ ((is.foldl (fun acc i => insertBucket acc (f i)) bs).map HourBucket.hour)) ↔
      (k ∈ bs.map HourBucket.hour ∨ ∃ i ∈ is, f i = k) := by
  induction is generalizing bs with
  | nil => simp
  | cons i rest ih =>
    rw [List.foldl_cons, ih]
    have hins : (k ∈ (insertBucket bs (f i)).map HourBucket.hour) ↔
        (k ∈ bs.map HourBucket.hour ∨ f i = k) := by
      rw [hour_map_insertBucket]
      by_cases hp : bs.any (fun b => b.hour == f i) = true
      · rw [if_pos hp]
        obtain ⟨b, hb, hbh⟩ := List.any_eq_true.mp hp
        have hbh2 : b.hour = f i := by simpa using hbh
        constructor
        · exact Or.inl
        · rintro (hmem | hfk)
          · exact hmem
          · exact hfk ▸ hbh2 ▸ List.mem_map_of_mem HourBucket.hour hb
      · rw [if_neg hp]
        simp [List.mem_append, eq_comm]
    rw [hins]
    simp only [List.mem_cons]
    constructor
    · rintro ((hmem | hfk) | ⟨j, hj, hfj⟩)
      · exact Or.inl hmem
      · exact Or.inr ⟨i, Or.inl rfl, hfk⟩
      · exact Or.inr ⟨j, Or.inr hj, hfj⟩
    · rintro (hmem | ⟨j, (hj | hj), hfj⟩)
      · exact Or.inl (Or.inl hmem)
      · exact Or.inl (Or.inr (hj ▸ hfj))
      · exact Or.inr ⟨j, hj, hfj⟩

theorem foldl_insert_hours_nodup (f : Nat → Nat) (is : List Nat) (bs : List HourBucket)
    (h : (bs.map HourBucket.hour).Nodup) :
    ((is.foldl (fun acc i => insertBucket acc (f i)) bs).map HourBucket.hour).Nodup := by
  induction is generalizing bs with
  | nil => exact h
  | cons i rest ih =>
    rw [List.foldl_cons]
    apply ih
    rw [hour_map_insertBucket]
    by_cases hp : bs.any (fun b => b.hour == f i) = true
    · rw [if_pos hp]
      exact h
    · rw [if_neg hp]
      rw [List.nodup_append]
      refine ⟨h, List.nodup_singleton _, ?_⟩
      intro x hx hx1
      rw [List.mem_singleton] at hx1
      subst hx1
      obtain ⟨b, hb, hbh⟩ := List.mem_map.mp hx
      exact hp (List.any_eq_true.mpr ⟨b, hb, by simp [hbh]⟩)

theorem foldl_insert_all_zero (f : Nat → Nat) (is : List Nat) (bs : List HourBucket)
    (h : ∀ b ∈ bs, b.occupations = 0 ∧ b.releases = 0) :
    ∀ b ∈ is.foldl (fun acc i => insertBucket acc (f i)) bs,
      b.occupations = 0 ∧ b.releases = 0 := by
  induction is generalizing bs with
  | nil => exact h
  | cons i rest ih =>
    rw [List.foldl_cons]
    apply ih
    intro b hb
    unfold insertBucket at hb
    by_cases hp : bs.any (fun q => q.hour == f i) = true
    · rw [if_pos hp] at hb
      obtain ⟨a, ha, hab⟩ := List.mem_map.mp hb
      by_cases hah : (a.hour == f i) = true
      · rw [if_pos hah] at hab
        rw [← hab]
        exact ⟨rfl, rfl⟩
      · rw [if_neg hah] at hab
        exact hab ▸ h a ha
    · rw [if_neg hp] at hb
      rcases List.mem_append.mp hb with hb1 | hb1
      · exact h b hb1
      · rw [List.mem_singleton] at hb1
        exact hb1 ▸ ⟨rfl, rfl⟩

theorem bucketActivity_cons (b : HourBucket) (tl : List HourBucket) :
    bucketActivity (b :: tl) = b.occupations + b.releases + bucketActivity tl := by
  unfold bucketActivity
  rw [List.map_cons, List.sum_cons]

theorem bucketActivity_bumpBucket (bs : List HourBucket) (h : Nat) (occ : Bool) :
    bucketActivity (bumpBucket bs h occ) =
      bucketActivity bs + bs.countP (fun b => b.hour == h) := by
  induction bs with
  | nil => rfl
  | cons b tl ih =>
    have hcons : bumpBucket (b :: tl) h occ =
        (if (b.hour == h) = true then
          (if occ = true then { b with occupations := b.occupations + 1 }
            else { b with releases := b.releases + 1 })
          else b) :: bumpBucket tl h occ := by
      unfold bumpBucket
      rw [List.map_cons]
    rw [hcons, bucketActivity_cons, bucketActivity_cons, ih, List.countP_cons]
    by_cases hbh : (b.hour == h) = true <;> cases occ <;> simp [hbh] <;> omega

theorem countP_hour_eq_one (bs : List HourBucket) (k : Nat)
    (hn : (bs.map HourBucket.hour).Nodup) (hm : k ∈ bs.map HourBucket.hour) :
    bs.countP (fun b => b.hour == k) = 1 := by
  induction bs with
  | nil => simp at hm
  | cons b tl ih =>
    rw [List.map_cons, List.nodup_cons] at hn
    rw [List.map_cons, List.mem_cons] at hm
    rw [List.countP_cons]
    by_cases hbk : (b.hour == k) = true
    · have hbk2 : b.hour = k := by simpa using hbk
      have hzero : tl.countP (fun q => q.hour == k) = 0 := by
        rw [List.countP_eq_zero]
        intro x hx hxk
        have hxk2 : x.hour = k := by simpa using hxk
        exact hn.1 (hbk2 ▸ hxk2 ▸ List.mem_map_of_mem HourBucket.hour hx)
      rw [hzero]
      simp [hbk]
    · have hbk2 : ¬ b.hour = k := by simpa using hbk
      rcases hm with hm1 | hm1
      · exact absurd hm1.symm hbk2
      · rw [ih hn.2 hm1]
        simp [hbk]

theorem foldl_bump_hours (L : List LogEntry) (bs : List HourBucket) :
    ((L.foldl (fun acc l => bumpBucket acc (hourOfDay l.timestamp) l.newState)
        bs).map HourBucket.hour) = bs.map HourBucket.hour := by
  induction L generalizing bs with
  | nil => rfl
  | cons l tl ih => rw [List.foldl_cons, ih, hour_map_bumpBucket]

theorem bucketActivity_foldl_bump (L : List LogEntry) (bs : List HourBucket)
    (hn : (bs.map HourBucket.hour).Nodup)
    (hz : ∀ l ∈ L, hourOfDay l.timestamp ∈ bs.map HourBucket.hour) :
    bucketActivity
        (L.foldl (fun acc l => bumpBucket acc (hourOfDay l.timestamp) l.newState) bs) =
      bucketActivity bs + L.length := by
  induction L generalizing bs with
  | nil => simp
  | cons l tl ih =>
    rw [List.foldl_cons]
    rw [ih (bumpBucket bs (hourOfDay l.timestamp) l.newState)
        (by rw [hour_map_bumpBucket]; exact hn)
        (by intro x hx; rw [hour_map_bumpBucket]; exact hz x (List.mem_cons_of_mem l hx))]
    rw [bucketActivity_bumpBucket,
      countP_hour_eq_one bs _ hn (hz l (List.mem_cons_self l tl))]
    rw [List.length_cons]
    omega

theorem seedBuckets_covers (now : Nat) (h24 : 24 * 3600000 ≤ now) (k : Nat) (hk : k < 24) :
    k ∈ (seedBuckets now).map HourBucket.hour := by
  rw [seedBuckets, foldl_insert_hours_mem]
  right
  refine ⟨(now / 3600000 + 7 - k) % 24, ?_, ?_⟩
  · rw [List.mem_range]
    omega
  · have hile : 3600000 * ((now / 3600000 + 7 - k) % 24) ≤ now := by omega
    rw [hourOfDay, Nat.mul_comm, Nat.sub_mul_div now 3600000 _ hile]
    omega

theorem seedBuckets_hours_nodup (now : Nat) :
    ((seedBuckets now).map HourBucket.hour).Nodup := by
  rw [seedBuckets]
  exact foldl_insert_hours_nodup _ _ [] (by simp)

theorem seedBuckets_all_zero (now : Nat) :
    ∀ b ∈ seedBuckets now, b.occupations = 0 ∧ b.releases = 0 := by
  rw [seedBuckets]
  exact foldl_insert_all_zero _ _ [] (by simp)

theorem bucketActivity_eq_zero (bs : List HourBucket)
    (h : ∀ b ∈ bs, b.occupations = 0 ∧ b.releases = 0) : bucketActivity bs = 0 := by
  unfold bucketActivity
  induction bs with
  | nil => rfl
  | cons b tl ih =>
    rw [List.map_cons, List.sum_cons]
    have hb := h b (List.mem_cons_self b tl)
    rw [hb.1, hb.2, ih fun x hx => h x (List.mem_cons_of_mem b hx)]

/-- C6: for every History Log (and so for every server state), provided the
clock has advanced at least a day past the epoch, the hourly pattern contains
a bucket for every one of the 24 hours of day (empty hours report zero, not
absence), all counts are nonnegative, and the total `occupations + releases`
over all buckets equals the number of log entries whose timestamp lies in
the last-24-hours window. -/
theorem C6_hourly_pattern (now : Nat) (hist : List LogEntry)
    (h24 : 24 * 3600000 ≤ now) :
    (∀ h, h < 24 → ∃ b ∈ hourlyPattern now hist, b.hour = h) ∧
      (∀ b ∈ hourlyPattern now hist, 0 ≤ b.occupations ∧ 0 ≤ b.releases) ∧
      bucketActivity (hourlyPattern now hist) =
        (hist.filter fun l => now - 24 * 3600000 ≤ l.timestamp).length := by
  refine ⟨?_, ?_, ?_⟩
  · intro h hh
    have hmem : h ∈ (hourlyPattern now hist).map HourBucket.hour := by
      rw [hourlyPattern, foldl_bump_hours]
      exact seedBuckets_covers now h24 h hh
    obtain ⟨b, hb, hbh⟩ := List.mem_map.mp hmem
    exact ⟨b, hb, hbh⟩
  · intro b hb
    exact ⟨Nat.zero_le _, Nat.zero_le _⟩
  · rw [hourlyPattern]
    rw [bucketActivity_foldl_bump _ _ (seedBuckets_hours_nodup now) ?hz]
    · rw [bucketActivity_eq_zero _ (seedBuckets_all_zero now), Nat.zero_add]
    case hz =>
      intro l hl
      exact seedBuckets_covers now h24 _ (Nat.mod_lt _ (by norm_num))

/-- History used by the C6 witness: one in-window entry. -/
def demoHist6 : List LogEntry :=
  [{ deviceId := "D", slotId := 1, previousState := false, newState := true,
      timestamp := 24 * 3600000, ipAddress := none, duration := none }]

theorem C6_hourly_pattern_witness :
    bucketActivity (hourlyPattern (24 * 3600000) demoHist6) =
      (demoHist6.filter fun l => 24 * 3600000 - 24 * 3600000 ≤ l.timestamp).length :=
  (C6_hourly_pattern (24 * 3600000) demoHist6 (by norm_num)).2.2

/-- An integer-form report for device `"D"`, used by the C1 counterexample. -/
def intReport (l : List Int) : Report :=
  { deviceId := some "D", timestamp := none, wifiStatus := none, slots := .ints l }

/-- The run refuting C1: occupy, drop the slot (empty report), re-report it
available (no event, no prior slot to diff), occupy again — the two logged
events for (D, 1) both have `newState = true`. -/
def c1Run : ServerState :=
  runReports 10000 emptyState
    [(1, intReport [0], none), (2, intReport [1], none), (3, intReport [], none),
      (4, intReport [0], none), (5, intReport [1], none)]

/-- C1 counterexample: after the report sequence `[0], [1], [], [0], [1]` for
one device, the History Log restricted to (D, 1) is `[occupied, occupied]` —
two consecutive events with identical `newState`, because the empty report
dropped the slot from the snapshot and its reintroduction produced no event.
So the claimed alternation fails for a sequence of reports processed from the
empty initial state. -/
theorem C1_counterexample :
    keyStates c1Run.slotHistory "D" 1 = [true, true] ∧
      ¬ alternating (keyStates c1Run.slotHistory "D" 1) := by
  have h : keyStates c1Run.slotHistory "D" 1 = [true, true] := by decide
  refine ⟨h, ?_⟩
  intro hc
  rw [h] at hc
  unfold alternating at hc
  exact (List.chain'_cons.mp hc).1 rfl

theorem keyStates_append (a b : List LogEntry) (d : String) (s : Nat) :
    keyStates (a ++ b) d s = keyStates a d s ++ keyStates b d s :=
  List.filterMap_append a b _

theorem keyStates_suffix (h1 h2 : List LogEntry) (hs : h1 <:+ h2) (d : String) (s : Nat) :
    keyStates h1 d s <:+ keyStates h2 d s := by
  obtain ⟨t, rfl⟩ := hs
  rw [keyStates_append]
  exact ⟨keyStates t d s, rfl⟩

theorem keyStates_singleton (e : LogEntry) (d : String) (s : Nat) :
    keyStates [e] d s =
      if (e.deviceId == d && e.slotId == s) = true then [e.newState] else [] := by
  unfold keyStates
  rw [List.filterMap_cons]
  by_cases h : (e.deviceId == d && e.slotId == s) = true
  · rw [if_pos h, if_pos h]
    rfl
  · rw [if_neg h, if_neg h]
    rfl

theorem mkLogEntry_key_fields (now : Nat) (hist : List LogEntry) (d : String) (s : Nat)
    (ps ns : Bool) (ip : Option String) :
    (mkLogEntry now hist d s ps ns ip).deviceId = d ∧
      (mkLogEntry now hist d s ps ns ip).slotId = s ∧
      (mkLogEntry now hist d s ps ns ip).newState = ns := by
  unfold mkLogEntry
  by_cases h : (ps == true && ns == false) = true
  · rw [if_pos h]
    cases findLastOccupied hist d s <;> exact ⟨rfl, rfl, rfl⟩
  · rw [if_neg h]
    exact ⟨rfl, rfl, rfl⟩

theorem suffix_append_right {α : Type} {l1 l2 : List α} (t : List α) (h : l1 <:+ l2) :
    l1 ++ t <:+ l2 ++ t := by
  obtain ⟨u, rfl⟩ := h
  exact ⟨u, (List.append_assoc u l1 t).symm⟩

theorem suffix_getLast?_eq {α : Type} {l1 l2 : List α} (h : l1 <:+ l2) (hne : l1 ≠ []) :
    l1.getLast? = l2.getLast? := by
  obtain ⟨t, rfl⟩ := h
  rw [List.getLast?_append]
  cases hl : l1.getLast? with
  | none => exact absurd (List.getLast?_eq_none_iff.mp hl) hne
  | some a => rfl

theorem chain'_of_suffix {α : Type} {R : α → α → Prop} {l1 l2 : List α}
    (h : l2.Chain' R) (hs : l1 <:+ l2) : l1.Chain' R := by
  obtain ⟨t, rfl⟩ := hs
  exact (List.chain'_append.mp h).2.1

theorem logSlotChange_keyStates_suffix (cap now : Nat) (hist : List LogEntry) (d : String)
    (s1 : Nat) (ps ns : Bool) (ip : Option String) (d' : String) (s' : Nat) :
    keyStates (logSlotChange cap now hist d s1 ps ns ip) d' s' <:+
      keyStates hist d' s' ++ (if (d == d' && s1 == s') = true then [ns] else []) := by
  obtain ⟨hdev, hslot, hns⟩ := mkLogEntry_key_fields now hist d s1 ps ns ip
  have hsingle : keyStates [mkLogEntry now hist d s1 ps ns ip] d' s' =
      if (d == d' && s1 == s') = true then [ns] else [] := by
    rw [keyStates_singleton, hdev, hslot, hns]
  have hdropk : logSlotChange cap now hist d s1 ps ns ip <:+
      hist ++ [mkLogEntry now hist d s1 ps ns ip] := by
    rw [logSlotChange_eq_drop]
    exact List.drop_suffix _ _
  have h1 := keyStates_suffix _ _ hdropk d' s'
  rw [keyStates_append, hsingle] at h1
  exact h1

theorem foldl_logSlotChange_keyStates (cap now : Nat) (d : String) (ip : Option String)
    (events : List (Nat × Bool × Bool)) (hist : List LogEntry) (d' : String) (s' : Nat) :
    keyStates (events.foldl
        (fun h ev => logSlotChange cap now h d ev.1 ev.2.1 ev.2.2 ip) hist) d' s' <:+
      keyStates hist d' s' ++
        events.filterMap
          (fun ev => if (d == d' && ev.1 == s') = true then some ev.2.2 else none) := by
  induction events generalizing hist with
  | nil => simp
  | cons ev rest ih =>
    rw [List.foldl_cons]
    have h1 := ih (logSlotChange cap now hist d ev.1 ev.2.1 ev.2.2 ip)
    have h2 := logSlotChange_keyStates_suffix cap now hist d ev.1 ev.2.1 ev.2.2 ip d' s'
    have h3 := suffix_append_right
      (rest.filterMap fun evr => if (d == d' && evr.1 == s') = true then some evr.2.2 else none)
      h2
    have heq : (if (d == d' && ev.1 == s') = true then [ev.2.2] else []) ++
        (rest.filterMap fun evr =>
          if (d == d' && evr.1 == s') = true then some evr.2.2 else none) =
        (ev :: rest).filterMap
          (fun evr => if (d == d' && evr.1 == s') = true then some evr.2.2 else none) := by
      rw [List.filterMap_cons]
      by_cases hc : (d == d' && ev.1 == s') = true
      · rw [if_pos hc, if_pos hc]
        rfl
      · rw [if_neg hc, if_neg hc]
        rfl
    refine h1.trans (h3.trans ?_)
    rw [List.append_assoc, heq]

/-- The `newState` that the detector would append for the pair
(device, `s'`) when processing slot `x`: `some` only when `x` has id `s'`,
the previous snapshot has a slot with that id, and the occupancy differs. -/
def evOf (prev : List SlotData) (s' : Nat) (x : SlotData) : Option Bool :=
  if (x.id == s') = true then
    match prev.find? (fun q => q.id == x.id) with
    | some p => if (p.occupied != x.occupied) = true then some x.occupied else none
    | none => none
  else none

theorem detectEvents_filterMap_eq (prev norm : List SlotData) (s' : Nat) :
    (detectEvents prev norm).filterMap
        (fun ev => if (ev.1 == s') = true then some ev.2.2 else none) =
      norm.filterMap (evOf prev s') := by
  rw [detectEvents, List.filterMap_filterMap]
  apply List.filterMap_congr
  intro x hx
  unfold evOf
  cases hf : prev.find? (fun q => q.id == x.id) with
  | none => by_cases hid : (x.id == s') = true <;> simp [hid]
  | some p =>
    by_cases hid : (x.id == s') = true
    · have hid2 : x.id = s' := by simpa using hid
      by_cases hocc : (p.occupied != x.occupied) = true <;> simp [hocc, hid, hid2]
    · have hid2 : ¬ x.id = s' := by simpa using hid
      by_cases hocc : (p.occupied != x.occupied) = true <;> simp [hocc, hid, hid2]

theorem filterMap_evOf_cases (prev : List SlotData) (s' : Nat) (norm : List SlotData)
    (hnodup : (norm.map SlotData.id).Nodup) :
    (norm.filterMap (evOf prev s') = [] ∧ ∀ x ∈ norm, x.id = s' → ∀ p,
        prev.find? (fun q => q.id == x.id) = some p → p.occupied = x.occupied) ∨
      (∃ x p, x ∈ norm ∧ x.id = s' ∧ prev.find? (fun q => q.id == x.id) = some p ∧
        p.occupied ≠ x.occupied ∧ norm.filterMap (evOf prev s') = [x.occupied]) := by
  induction norm with
  | nil =>
    left
    exact ⟨rfl, by intro x hx; cases hx⟩
  | cons x0 tl ih =>
    rw [List.map_cons, List.nodup_cons] at hnodup
    rw [List.filterMap_cons]
    cases hev : evOf prev s' x0 with
    | none =>
      rcases ih hnodup.2 with ⟨hnil, hall⟩ | ⟨x, p, hx, hxid, hf, hocc, hlist⟩
      · left
        refine ⟨hnil, ?_⟩
        intro x hx hxid p hf
        rcases List.mem_cons.mp hx with hx0 | hxtl
        · subst hx0
          unfold evOf at hev
          by_cases hid : (x.id == s') = true
          · rw [if_pos hid, hf] at hev
            have hev2 : (if (p.occupied != x.occupied) = true then some x.occupied
                else none) = none := hev
            by_cases hocc : (p.occupied != x.occupied) = true
            · rw [if_pos hocc] at hev2
              cases hev2
            · simpa using hocc
          · exact absurd (by simp [hxid]) hid
        · exact hall x hxtl hxid p hf
      · right
        exact ⟨x, p, List.mem_cons_of_mem x0 hx, hxid, hf, hocc, hlist⟩
    | some b =>
      have hid : (x0.id == s') = true := by
        unfold evOf at hev
        by_cases hid : (x0.id == s') = true
        · exact hid
        · rw [if_neg hid] at hev
          cases hev
      have hid2 : x0.id = s' := by simpa using hid
      have htl : tl.filterMap (evOf prev s') = [] := by
        rw [List.filterMap_eq_nil_iff]
        intro x hx
        unfold evOf
        have hxid : ¬ (x.id == s') = true := by
          intro hxs
          have hxs2 : x.id = s' := by simpa using hxs
          exact hnodup.1 (hid2 ▸ hxs2 ▸ List.mem_map_of_mem SlotData.id hx)
        rw [if_neg hxid]
      unfold evOf at hev
      rw [if_pos hid] at hev
      cases hf : prev.find? (fun q => q.id == x0.id) with
      | none =>
        rw [hf] at hev
        cases hev
      | some p =>
        rw [hf] at hev
        have hev2 : (if (p.occupied != x0.occupied) = true then some x0.occupied
            else none) = some b := hev
        by_cases hocc : (p.occupied != x0.occupied) = true
        · rw [if_pos hocc] at hev2
          injection hev2 with hb
          subst hb
          right
          exact ⟨x0, p, List.mem_cons_self x0 tl, hid2, hf, by simpa using hocc, by
            rw [htl]⟩
        · rw [if_neg hocc] at hev2
          cases hev2

/-- The invariant carried through good runs: every (device, slot) History
Log subsequence alternates; the last logged `newState` of a pair agrees with
the stored snapshot's occupancy for that slot id; snapshot slot ids are
duplicate-free. -/
def Inv (st : ServerState) : Prop :=
  (∀ d s, alternating (keyStates st.slotHistory d s)) ∧
    (∀ d s b, (keyStates st.slotHistory d s).getLast? = some b →
      ∃ snap, mapGet st.parkingData d = some snap ∧
        ∃ x, x ∈ snap.slots ∧ x.id = s ∧ x.occupied = b) ∧
    (∀ d snap, mapGet st.parkingData d = some snap → (snap.slots.map SlotData.id).Nodup)

theorem Inv_empty : Inv emptyState := by
  refine ⟨?_, ?_, ?_⟩
  · intro d s
    unfold alternating keyStates emptyState
    simp
  · intro d s b h
    unfold keyStates emptyState at h
    simp at h
  · intro d snap h
    unfold mapGet emptyState at h
    simp at h

theorem goodStep_spec (st : ServerState) (now : Nat) (r : Report) (d : String)
    (hd : r.deviceId = some d) (hne : (d == "") = false) (hg : goodStep st now r = true) :
    ((normalizeSlots now r.slots).map SlotData.id).Nodup ∧
      ∀ p ∈ previousSlotsOf st d, ∃ x ∈ normalizeSlots now r.slots, x.id = p.id := by
  unfold goodStep at hg
  split at hg
  · rename_i heq
    rw [hd] at heq
    cases heq
  · rename_i d2 heq
    rw [hd] at heq
    injection heq with heq2
    subst heq2
    rw [if_neg (by simp only [hne]; exact Bool.false_ne_true)] at hg
    obtain ⟨h1, h2⟩ := (Bool.and_eq_true _ _).mp hg
    refine ⟨of_decide_eq_true h1, ?_⟩
    intro p hp
    have h3 := (List.all_eq_true.mp h2) p hp
    obtain ⟨x, hx, hxp⟩ := List.any_eq_true.mp h3
    exact ⟨x, hx, by simpa using hxp⟩

theorem find_prev_occupied (prev : List SlotData) (s' : Nat)
    (hnodupPrev : (prev.map SlotData.id).Nodup)
    (y : SlotData) (hy : y ∈ prev) (hyid : y.id = s') :
    ∃ p, prev.find? (fun q => q.id == s') = some p ∧ p.id = s' ∧
      p.occupied = y.occupied := by
  have hsome : (prev.find? (fun q => q.id == s')).isSome :=
    List.find?_isSome.mpr ⟨y, hy, by simp [hyid]⟩
  cases hp : prev.find? (fun q => q.id == s') with
  | none =>
    rw [hp] at hsome
    cases hsome
  | some p =>
    have hpmem := List.mem_of_find?_eq_some hp
    have hpid : p.id = s' := by simpa using List.find?_some hp
    have hpy : p = y := List.inj_on_of_nodup_map hnodupPrev hpmem hy (by rw [hpid, hyid])
    exact ⟨p, rfl, hpid, by rw [hpy]⟩

theorem Inv_step (cap now : Nat) (st : ServerState) (r : Report) (ip : Option String)
    (hInv : Inv st) (hg : goodStep st now r = true) :
    Inv (processReport cap now st r ip).1 := by
  by_cases hf : falsyDeviceId r.deviceId = true
  · have hid : (processReport cap now st r ip).1 = st := by
      unfold processReport
      rw [if_pos hf]
    rw [hid]
    exact hInv
  · have hf2 : falsyDeviceId r.deviceId = false := by simpa using hf
    cases hdcase : r.deviceId with
    | none =>
      rw [hdcase] at hf2
      simp [falsyDeviceId] at hf2
    | some d =>
      have hne : (d == "") = false := by
        rw [hdcase] at hf2
        simpa [falsyDeviceId] using hf2
      have hdg : r.deviceId.getD "" = d := by rw [hdcase]; rfl
      obtain ⟨hnodup, hcover⟩ := goodStep_spec st now r d hdcase hne hg
      rw [processReport_eq cap now st r ip hf2, hdg]
      have hsuffix : ∀ d' s',
          keyStates ((detectEvents (previousSlotsOf st d) (normalizeSlots now r.slots)).foldl
            (fun h ev => logSlotChange cap now h d ev.1 ev.2.1 ev.2.2 ip)
            st.slotHistory) d' s' <:+
          keyStates st.slotHistory d' s' ++
            (detectEvents (previousSlotsOf st d) (normalizeSlots now r.slots)).filterMap
              (fun ev => if (d == d' && ev.1 == s') = true then some ev.2.2 else none) :=
        fun d' s' => foldl_logSlotChange_keyStates cap now d ip _ st.slotHistory d' s'
      have hEother : ∀ d' s', (d == d') = false →
          (detectEvents (previousSlotsOf st d) (normalizeSlots now r.slots)).filterMap
            (fun ev => if (d == d' && ev.1 == s') = true then some ev.2.2 else none) = [] := by
        intro d' s' hdd
        rw [List.filterMap_eq_nil_iff]
        intro ev hev
        rw [if_neg (by rw [hdd]; simp)]
      have hEself : ∀ s',
          (detectEvents (previousSlotsOf st d) (normalizeSlots now r.slots)).filterMap
            (fun ev => if (d == d && ev.1 == s') = true then some ev.2.2 else none) =
          (normalizeSlots now r.slots).filterMap (evOf (previousSlotsOf st d) s') := by
        intro s'
        have hfun : (fun ev : Nat × Bool × Bool =>
            if (d == d && ev.1 == s') = true then some ev.2.2 else none) =
            (fun ev : Nat × Bool × Bool =>
              if (ev.1 == s') = true then some ev.2.2 else none) := by
          funext ev
          rw [beq_self_eq_true, Bool.true_and]
        rw [hfun, detectEvents_filterMap_eq]
      refine ⟨?_, ?_, ?_⟩
      · -- alternation
        intro d' s'
        by_cases hdd : (d == d') = true
        · have hdd2 : d = d' := by simpa using hdd
          subst hdd2
          refine chain'_of_suffix ?_ ((hsuffix d s').trans (by rw [hEself s']))
          rcases filterMap_evOf_cases (previousSlotsOf st d) s' _ hnodup with
            ⟨hnil, _⟩ | ⟨x, p, hx, hxid, hfind, hocc, hone⟩
          · rw [hnil, List.append_nil]
            exact hInv.1 d s'
          · rw [hone, List.chain'_append]
            refine ⟨hInv.1 d s', List.chain'_singleton _, ?_⟩
            intro a ha y hy
            have hy2 : x.occupied = y := by simpa using hy
            subst hy2
            have hlast : (keyStates st.slotHistory d s').getLast? = some a := by
              simpa using ha
            obtain ⟨snap0, hm0, y0, hy0, hy0id, hy0b⟩ := hInv.2.1 d s' a hlast
            have hprevslots : previousSlotsOf st d = snap0.slots := by
              unfold previousSlotsOf
              rw [hm0]
            have hnodup0 : (snap0.slots.map SlotData.id).Nodup := hInv.2.2 d snap0 hm0
            obtain ⟨p2, hp2find, hp2id, hp2occ⟩ :=
              find_prev_occupied snap0.slots s' hnodup0 y0 hy0 hy0id
            have hfind2 : snap0.slots.find? (fun q => q.id == x.id) = some p2 := by
              rw [hxid]
              exact hp2find
            rw [hprevslots, hfind2] at hfind
            injection hfind with hpp
            subst hpp
            intro haeq
            exact hocc (by rw [hp2occ, hy0b, haeq])
        · have hdd2 : (d == d') = false := by simpa using hdd
          refine chain'_of_suffix ?_
            ((hsuffix d' s').trans (by rw [hEother d' s' hdd2, List.append_nil]))
          exact hInv.1 d' s'
      · -- last event agrees with the new snapshot
        intro d' s' b hlast
        have hne' : keyStates ((detectEvents (previousSlotsOf st d)
            (normalizeSlots now r.slots)).foldl
            (fun h ev => logSlotChange cap now h d ev.1 ev.2.1 ev.2.2 ip)
            st.slotHistory) d' s' ≠ [] := by
          intro hnil
          rw [hnil] at hlast
          cases hlast
        have hlast2 := (suffix_getLast?_eq (hsuffix d' s') hne').symm.trans hlast
        by_cases hdd : (d == d') = true
        · have hdd2 : d = d' := by simpa using hdd
          subst hdd2
          rw [hEself s'] at hlast2
          refine ⟨builtSnapshot now r d, mapGet_mapSet_self _ _ _, ?_⟩
          rcases filterMap_evOf_cases (previousSlotsOf st d) s' _ hnodup with
            ⟨hnil, hall⟩ | ⟨x, p, hx, hxid, hfind, hocc, hone⟩
          · rw [hnil, List.append_nil] at hlast2
            obtain ⟨snap0, hm0, y0, hy0, hy0id, hy0b⟩ := hInv.2.1 d s' b hlast2
            have hprevslots : previousSlotsOf st d = snap0.slots := by
              unfold previousSlotsOf
              rw [hm0]
            obtain ⟨x, hxmem, hxid⟩ := hcover y0 (by rw [hprevslots]; exact hy0)
            have hnodup0 : (snap0.slots.map SlotData.id).Nodup := hInv.2.2 d snap0 hm0
            obtain ⟨p2, hp2find, hp2id, hp2occ⟩ :=
              find_prev_occupied snap0.slots s' hnodup0 y0 hy0 hy0id
            have hxids : x.id = s' := by rw [hxid, hy0id]
            have hfind2 : (previousSlotsOf st d).find? (fun q => q.id == x.id) = some p2 := by
              rw [hprevslots, hxids]
              exact hp2find
            have hxb : x.occupied = b := by
              rw [hall x hxmem hxids p2 hfind2] at hp2occ
              rw [hp2occ, hy0b]
            exact ⟨x, hxmem, hxids, hxb⟩
          · rw [hone] at hlast2
            rw [List.getLast?_concat] at hlast2
            injection hlast2 with hb
            exact ⟨x, hx, hxid, hb⟩
        · have hdd2 : (d == d') = false := by simpa using hdd
          rw [hEother d' s' hdd2, List.append_nil] at hlast2
          obtain ⟨snap0, hm0, hx⟩ := hInv.2.1 d' s' b hlast2
          refine ⟨snap0, ?_, hx⟩
          have hneq : (d' == d) = false := by
            have hdne : ¬ d = d' := by simpa using hdd2
            simp only [beq_eq_false_iff_ne, ne_eq]
            intro h
            exact hdne h.symm
          rw [mapGet_mapSet_other st.parkingData d d' (builtSnapshot now r d) hneq]
          exact hm0
      · -- snapshot slot ids stay duplicate-free
        intro d'' snap hm
        by_cases hdd : d'' = d
        · subst hdd
          rw [mapGet_mapSet_self] at hm
          injection hm with hm2
          rw [← hm2]
          exact hnodup
        · have hneq : (d'' == d) = false := by
            simp only [beq_eq_false_iff_ne, ne_eq]
            exact hdd
          rw [mapGet_mapSet_other st.parkingData d d'' (builtSnapshot now r d) hneq] at hm
          exact hInv.2.2 d'' snap hm

theorem Inv_run (cap : Nat) (st : ServerState) (rs : List (Nat × Report × Option String))
    (hInv : Inv st) (hg : goodRun cap st rs = true) : Inv (runReports cap st rs) := by
  induction rs generalizing st with
  | nil => exact hInv
  | cons nr rest ih =>
    obtain ⟨now, r, ip⟩ := nr
    rw [goodRun] at hg
    obtain ⟨h1, h2⟩ := (Bool.and_eq_true _ _).mp hg
    rw [runReports, List.foldl_cons]
    exact ih (processReport cap now st r ip).1 (Inv_step cap now st r ip hInv h1) h2

/-- C1 (amended): for every sequence of reports processed from the empty
initial state in which each report's normalized slot ids are pairwise
distinct and cover every slot id of the device's previous snapshot (no slot
id is dropped and later reintroduced), the History Log subsequence of every
(deviceId, slotId) pair strictly alternates in `newState`.  (Without that
side condition the property fails, see the counterexample.) -/
theorem C1_amended_alternation (cap : Nat) (rs : List (Nat × Report × Option String))
    (hg : goodRun cap emptyState rs = true) (d : String) (s : Nat) :
    alternating (keyStates (runReports cap emptyState rs).slotHistory d s) :=
  (Inv_run cap emptyState rs Inv_empty hg).1 d s

theorem C1_amended_alternation_witness :
    alternating (keyStates (runReports 10000 emptyState
      [(1, intReport [0], none), (2, intReport [1], none),
        (3, intReport [0], none)]).slotHistory "D" 1) :=
  C1_amended_alternation 10000
    [(1, intReport [0], none), (2, intReport [1], none), (3, intReport [0], none)]
    (by decide) "D" 1

end SmartParking
